import Mathlib

/-!
Verification of the Claude Code workflow components
(`claude_code_components.py`): a shallow embedding of the command
builder (`ClaudeCodeExecute.execute`), the process-runner exception
handling, the response analyzer (`ClaudeCodeAnalyze.execute`), the
environment resolver (`ensure_claude_code_available`) and the
initialization component (`ClaudeCodeInit.execute`), together with
theorems settling the specification claims.

Modelling conventions:
  * Python machine integers are `Int`/`Nat`; numeric JSON/Python
    literals are exact decimals (`PyNum`, a mantissa together with a
    power-of-ten denominator) so every computation is kernel-reducible.
  * Fallible Python code (raised exceptions that escape the analyzed
    function) is modelled with `Except String`.
  * `json.loads` is an external standard-library call; the analyzer is
    parameterized by its outcome (`ParseOutcome`), which is either the
    parsed document or a parse failure.
  * All recursion is structural (fuelled where needed, with fuel chosen
    provably sufficient), never well-founded, so that closed theorems
    evaluate by `rfl`/`decide`.
-/

namespace ClaudeCodeComponents

/-- Exact decimal number: the value is `mantissa * 10 ^ (-exp10)`.
Python/JSON numbers in the analyzed code are produced either by
`int()` over a digit string or by `float()` over a digit-and-dot
string, both of which denote exact decimals. -/
structure PyNum where
  mantissa : Int
  exp10 : Nat
deriving DecidableEq, Repr

/-- Numeric equality of exact decimals, as Python `==` compares
numbers regardless of representation. -/
def PyNum.numEq (a b : PyNum) : Bool :=
  a.mantissa * (10 : Int) ^ b.exp10 == b.mantissa * (10 : Int) ^ a.exp10

/-- JSON documents, as produced by `json.loads`: objects keep their
field lists in source order (duplicate keys are resolved to the last
occurrence, as the Python parser does). -/
inductive Json where
  | null
  | bool (b : Bool)
  | num (v : PyNum)
  | str (s : String)
  | arr (xs : List Json)
  | obj (fields : List (String × Json))

/-- The Python integer `n` as a JSON value. -/
def jint (n : Int) : Json := Json.num ⟨n, 0⟩

/-- Python truthiness of a value decoded from JSON:
`None`, `False`, numeric zero, the empty string, the empty list and
the empty dict are falsy; everything else is truthy. -/
def jsonTruthy : Json → Bool
  | .null => false
  | .bool b => b
  | .num v => v.mantissa != 0
  | .str s => s != ""
  | .arr xs => !xs.isEmpty
  | .obj fs => !fs.isEmpty

/-- Python `==` on the hashable JSON scalars (the only values the
analyzed code ever stores in a `set`): `True == 1` and `2 == 2.0`
hold, containers are never numerically mixed in. -/
def flatBeq : Json → Json → Bool
  | .null, .null => true
  | .bool a, .bool b => a == b
  | .bool a, .num b => PyNum.numEq ⟨if a then 1 else 0, 0⟩ b
  | .num a, .bool b => PyNum.numEq a ⟨if b then 1 else 0, 0⟩
  | .num a, .num b => PyNum.numEq a b
  | .str a, .str b => a == b
  | _, _ => false

/-- Dictionary lookup with Python `dict` duplicate-key semantics
(`json.loads` keeps the last occurrence of a repeated key). -/
def lastLookup (fs : List (String × Json)) (key : String) : Option Json :=
  match fs with
  | [] => none
  | (k, v) :: rest =>
      match lastLookup rest key with
      | some w => some w
      | none => if k == key then some v else none

/-! ### Python string helpers -/

/-- Length of the maximal prefix of `s` whose characters satisfy `f`. -/
def runLen (f : Char → Bool) : List Char → Nat
  | [] => 0
  | c :: cs => if f c then runLen f cs + 1 else 0

/-- `str.strip()`: remove leading and trailing whitespace. -/
def stripL (s : List Char) : List Char :=
  (((s.dropWhile Char.isWhitespace).reverse).dropWhile Char.isWhitespace).reverse

/-- `str.strip()` on `String`. -/
def pyStrip (s : String) : String := ⟨stripL s.data⟩

/-- `str.split()` with no arguments: split on runs of whitespace,
dropping empty pieces (fuelled; the fuel is the length of the list,
which bounds the recursion depth). -/
def pySplitF : Nat → List Char → List String
  | 0, _ => []
  | _, [] => []
  | f + 1, c :: cs =>
      if c.isWhitespace then pySplitF f cs
      else
        String.mk (c :: cs.takeWhile (fun d => !d.isWhitespace)) ::
          pySplitF f (cs.dropWhile (fun d => !d.isWhitespace))

/-- `str.split()` on `String`. -/
def pySplit (s : String) : List String := pySplitF (s.data.length + 1) s.data

/-- `int()` on a captured `\d+` string: fold the decimal digits. -/
def digitsToNat (s : List Char) : Nat :=
  s.foldl (fun acc c => acc * 10 + (c.toNat - '0'.toNat)) 0

/-- Substring test (`key in s` for Python strings): checked at the
head position, then recursively in the tail. -/
def strHasPrefix : List Char → List Char → Bool
  | [], _ => true
  | _ :: _, [] => false
  | p :: ps, c :: cs => p == c && strHasPrefix ps cs

/-- Substring occurrence anywhere in the haystack. -/
def strHasSubstr (needle : List Char) : List Char → Bool
  | [] => strHasPrefix needle []
  | c :: cs => strHasPrefix needle (c :: cs) || strHasSubstr needle cs

/-! ### A faithful matcher for the regular expressions used by
`ClaudeCodeAnalyze.execute`.

Every pattern in the source is a sequence of: a case-insensitive
literal, a greedy `\s*`, an optional single character (`\$?`), or a
greedy capturing `(<class>+)` group.  The matcher implements Python
`re` semantics for exactly these shapes: leftmost match, greedy
quantifiers with backtracking, `re.IGNORECASE`, non-overlapping
`findall` continuing at the end of each match. -/

inductive Tok where
  /-- A case-insensitive literal (stored lowercased). -/
  | litCI (lit : String)
  /-- Greedy `\s*`-style star over a character class. -/
  | classStar (f : Char → Bool)
  /-- Optional single character, e.g. `\$?`. -/
  | optChar (c : Char)
  /-- The single capturing group `(<class>+)`, greedy, at least one
  character. -/
  | group (f : Char → Bool)

/-- Match a lowercased literal against the text case-insensitively,
returning the rest of the text. -/
def dropPrefixCI : List Char → List Char → Option (List Char)
  | [], s => some s
  | _ :: _, [] => none
  | p :: ps, c :: cs => if c.toLower == p then dropPrefixCI ps cs else none

/-- Greedy star backtracking loop: try consuming `k` characters of the
class run, largest first, handing the rest to the continuation. -/
def starLoop (next : List Char → Option (String × List Char)) (s : List Char) :
    Nat → Option (String × List Char)
  | 0 => next s
  | k + 1 =>
      match next (s.drop (k + 1)) with
      | some r => some r
      | none => starLoop next s k

/-- Greedy plus-group backtracking loop: try capturing `k ≥ 1`
characters, largest first. -/
def groupLoop (next : List Char → Option (String × List Char)) (s : List Char) :
    Nat → Option (String × List Char)
  | 0 => none
  | k + 1 =>
      match next (s.drop (k + 1)) with
      | some (_, rest) => some (String.mk (s.take (k + 1)), rest)
      | none => groupLoop next s k

/-- Match a token sequence at the head of the text, returning the
capture of the (single) group and the remaining text.  The fuel is the
number of tokens, decremented once per token, so `toks.length + 1`
always suffices. -/
def matchToksF : Nat → List Tok → List Char → Option (String × List Char)
  | 0, _, _ => none
  | _ + 1, [], s => some ("", s)
  | fuel + 1, .litCI lit :: ts, s =>
      match dropPrefixCI lit.data s with
      | some rest => matchToksF fuel ts rest
      | none => none
  | fuel + 1, .optChar c :: ts, s =>
      match s with
      | c' :: rest =>
          if c' == c then
            match matchToksF fuel ts rest with
            | some r => some r
            | none => matchToksF fuel ts s
          else matchToksF fuel ts s
      | [] => matchToksF fuel ts s
  | fuel + 1, .classStar f :: ts, s =>
      starLoop (fun s' => matchToksF fuel ts s') s (runLen f s)
  | fuel + 1, .group f :: ts, s =>
      groupLoop (fun s' => matchToksF fuel ts s') s (runLen f s)

/-- Match a whole pattern at the head of the text. -/
def matchToks (toks : List Tok) (s : List Char) : Option (String × List Char) :=
  matchToksF (toks.length + 1) toks s

/-- `re.findall` for a single-group pattern: scan left to right,
collect captures of non-overlapping matches, resume after each match.
The fuel is the text length plus one; every step either consumes the
(nonempty) match or advances one character. -/
def findAllF (pat : List Tok) : Nat → List Char → List String
  | 0, _ => []
  | fuel + 1, s =>
      match matchToks pat s with
      | some (cap, rest) =>
          if rest.length < s.length then cap :: findAllF pat fuel rest
          else
            match s with
            | [] => [cap]
            | _ :: tail => cap :: findAllF pat fuel tail
      | none =>
          match s with
          | [] => []
          | _ :: tail => findAllF pat fuel tail

/-- `re.findall(pattern, text, re.IGNORECASE)` over a text. -/
def findAll (pat : List Tok) (s : List Char) : List String :=
  findAllF pat (s.length + 1) s

/-! The exact patterns of `ClaudeCodeAnalyze.execute`. -/

/-- `\s*` -/
def wsStar : Tok := .classStar Char.isWhitespace
/-- `(\d+)` -/
def digitGroup : Tok := .group Char.isDigit

/-- `r'Input tokens:\s*(\d+)'` -/
def patInputTokens : List Tok := [.litCI "input tokens:", wsStar, digitGroup]
/-- `r'Output tokens:\s*(\d+)'` -/
def patOutputTokens : List Tok := [.litCI "output tokens:", wsStar, digitGroup]
/-- `r'Total cost:\s*\$?([\d.]+)'` -/
def patTotalCost : List Tok :=
  [.litCI "total cost:", wsStar, .optChar '$', .group (fun c => c.isDigit || c == '.')]
/-- `r'(\d+)\s*input\s*tokens'` -/
def patNInputTokens : List Tok :=
  [digitGroup, wsStar, .litCI "input", wsStar, .litCI "tokens"]
/-- `r'(\d+)\s*output\s*tokens'` -/
def patNOutputTokens : List Tok :=
  [digitGroup, wsStar, .litCI "output", wsStar, .litCI "tokens"]
/-- `r'Edited:\s*([^\n]+)'` -/
def patEdited : List Tok := [.litCI "edited:", wsStar, .group (fun c => c != '\n')]
/-- `r'Modified:\s*([^\n]+)'` -/
def patModified : List Tok := [.litCI "modified:", wsStar, .group (fun c => c != '\n')]
/-- `r'Writing to:\s*([^\n]+)'` -/
def patWritingTo : List Tok := [.litCI "writing to:", wsStar, .group (fun c => c != '\n')]
/-- `r'Created:\s*([^\n]+)'` -/
def patCreated : List Tok := [.litCI "created:", wsStar, .group (fun c => c != '\n')]

/-! ### The response analyzer: `ClaudeCodeAnalyze.execute`.

The component reads `output` (stdout) and `error` (stderr) and produces
token counts, the cost, the edited files, an edit summary and the
`has_errors` / `success` flags.  Exceptions that would escape
`execute` (attribute errors on ill-shaped JSON, unparsable floats,
unhashable set elements) are modelled as `Except.error`. -/

/-- The analyzer's output record.  `input_tokens`, `output_tokens` and
`total_cost` hold whatever JSON value the code assigns (Python does
not coerce them); the integer initializer `0` and the float
initializer `0.0` are both the exact decimal zero. -/
structure AOut where
  input_tokens : Json
  output_tokens : Json
  total_cost : Json
  files_edited : List Json
  edit_summary : String
  has_errors : Bool
  success : Bool

/-- The unconditional initialization at the top of
`ClaudeCodeAnalyze.execute`: zero tokens and cost, no files, empty
summary, `has_errors = bool(error_text)`,
`success = not bool(error_text)`. -/
def initAOut (errorText : String) : AOut :=
  { input_tokens := jint 0
    output_tokens := jint 0
    total_cost := jint 0
    files_edited := []
    edit_summary := ""
    has_errors := errorText != ""
    success := errorText == "" }

/-- Python `key in value` for a decoded JSON value: key membership for
dicts, element equality for lists, substring test for strings, a
`TypeError` otherwise. -/
def pyIn (key : String) (d : Json) : Except String Bool :=
  match d with
  | .obj fs => .ok (fs.any (fun p => p.1 == key))
  | .arr xs =>
      .ok (xs.any (fun j => match j with | .str s => s == key | _ => false))
  | .str s => .ok (strHasSubstr key.data s.data)
  | _ => .error "TypeError: argument is not iterable"

/-- Python `value[key]` subscription on a decoded JSON value. -/
def getItem (d : Json) (key : String) : Except String Json :=
  match d with
  | .obj fs =>
      match lastLookup fs key with
      | some v => .ok v
      | none => .error "KeyError"
  | _ => .error "TypeError: value is not subscriptable"

/-- Python `value.get(key, default)`: only dicts have `get`. -/
def dictGet (d : Json) (key : String) (dflt : Json) : Except String Json :=
  match d with
  | .obj fs => .ok ((lastLookup fs key).getD dflt)
  | _ => .error "AttributeError: value has no attribute get"

/-- `tool_call.get('name') in ['Edit', 'Write', 'MultiEdit']`: only a
string can equal one of the three list elements. -/
def isEditName : Json → Bool
  | .str s => s == "Edit" || s == "Write" || s == "MultiEdit"
  | _ => false

/-- `edited_files.add(file_path)`: Python sets hash their elements, so
a decoded list or dict raises `TypeError`; scalars are deduplicated by
`==`.  The accumulator keeps first-insertion order (the iteration
order of a Python set is not observable to the claims, which compare
up to set equality). -/
def addToSet (acc : List Json) (v : Json) : Except String (List Json) :=
  match v with
  | .arr _ => .error "TypeError: unhashable type"
  | .obj _ => .error "TypeError: unhashable type"
  | _ => .ok (if acc.any (fun w => flatBeq w v) then acc else acc ++ [v])

/-- One iteration of the `for tool_call in data['tool_calls']` loop. -/
def editStep (acc : List Json) (tc : Json) : Except String (List Json) :=
  match dictGet tc "name" Json.null with
  | .error e => .error e
  | .ok nm =>
      if isEditName nm then
        match pyIn "parameters" tc with
        | .error e => .error e
        | .ok true =>
            match getItem tc "parameters" with
            | .error e => .error e
            | .ok params =>
                match dictGet params "file_path" Json.null with
                | .error e => .error e
                | .ok fp => if jsonTruthy fp then addToSet acc fp else .ok acc
        | .ok false => .ok acc
      else .ok acc

/-- The whole tool-call loop, threading the edited-files set. -/
def collectEdits (acc : List Json) : List Json → Except String (List Json)
  | [] => .ok acc
  | tc :: rest =>
      match editStep acc tc with
      | .error e => .error e
      | .ok acc' => collectEdits acc' rest

/-- The `if 'usage' in data:` block: when a usage record is present it
must support `.get`, and the three fields are read with defaults `0`,
`0` and `0.0`. -/
def usageExtract (d : Json) : Except String (Option (Json × Json × Json)) :=
  match pyIn "usage" d with
  | .error e => .error e
  | .ok false => .ok none
  | .ok true =>
      match getItem d "usage" with
      | .error e => .error e
      | .ok (.obj ufs) =>
          .ok (some ((lastLookup ufs "input_tokens").getD (jint 0),
                     (lastLookup ufs "output_tokens").getD (jint 0),
                     (lastLookup ufs "total_cost").getD (jint 0)))
      | .ok _ => .error "AttributeError: value has no attribute get"

/-- The `if 'tool_calls' in data:` block.  Iterating a decoded list
visits its elements; iterating a nonempty string or dict visits
strings, whose `.get` raises; iterating anything else raises a
`TypeError`; when the key is absent the edited set stays empty. -/
def toolCallsExtract (d : Json) : Except String (List Json) :=
  match pyIn "tool_calls" d with
  | .error e => .error e
  | .ok false => .ok []
  | .ok true =>
      match getItem d "tool_calls" with
      | .error e => .error e
      | .ok (.arr xs) => collectEdits [] xs
      | .ok (.str s) =>
          if s == "" then .ok []
          else .error "AttributeError: value has no attribute get"
      | .ok (.obj fs) =>
          if fs.isEmpty then .ok []
          else .error "AttributeError: value has no attribute get"
      | .ok _ => .error "TypeError: value is not iterable"

/-- `', '.join(xs)` demands every element be a string. -/
def allStringsOf : List Json → Except String (List String)
  | [] => .ok []
  | .str s :: rest =>
      match allStringsOf rest with
      | .ok ss => .ok (s :: ss)
      | .error e => .error e
  | _ :: _ => .error "TypeError: sequence item: expected str instance"

/-- `', '.join` of a list of strings. -/
def joinCommaSep : List String → String
  | [] => ""
  | [s] => s
  | s :: rest => s ++ ", " ++ joinCommaSep rest

/-- The edit-summary assignment of the JSON path: the f-string is
built only after `join` succeeds. -/
def editSummaryOf (files : List Json) : Except String String :=
  if files.isEmpty then .ok "No files were edited"
  else
    match allStringsOf files with
    | .error e => .error e
    | .ok strs =>
        .ok ("Edited " ++ toString files.length ++ " file(s): " ++ joinCommaSep strs)

/-- The JSON branch of `ClaudeCodeAnalyze.execute` (lines 384-409):
usage extraction, tool-call scan, summary.  `success` and
`has_errors` are never reassigned on this path. -/
def jsonPath (base : AOut) (d : Json) : Except String AOut :=
  match usageExtract d with
  | .error e => .error e
  | .ok ou =>
      match toolCallsExtract d with
      | .error e => .error e
      | .ok files =>
          match editSummaryOf files with
          | .error e => .error e
          | .ok summ =>
              match ou with
              | some (it, ot, tc) =>
                  .ok { base with
                        input_tokens := it, output_tokens := ot, total_cost := tc,
                        files_edited := files, edit_summary := summ }
              | none =>
                  .ok { base with files_edited := files, edit_summary := summ }

/-- Segments of a dot-separated string, for `float()`. -/
def splitOnDot : List Char → List (List Char)
  | [] => [[]]
  | c :: cs =>
      if c == '.' then [] :: splitOnDot cs
      else
        match splitOnDot cs with
        | [] => [[c]]
        | p :: ps => (c :: p) :: ps

/-- `float()` applied to a `([\d.]+)` capture: at most one dot and at
least one digit, exact decimal value. -/
def parseFloatCapture (s : List Char) : Option PyNum :=
  match splitOnDot s with
  | [a] => if a.isEmpty then none else some ⟨(digitsToNat a : Int), 0⟩
  | [a, b] =>
      if a.isEmpty && b.isEmpty then none
      else some ⟨(digitsToNat (a ++ b) : Int), b.length⟩
  | _ => none

/-- The last two token patterns of the fallback loop (both classified
by the `'input' in pattern.lower()` / `'output' in ...` tests: pattern
four updates `input_tokens`, pattern five updates `output_tokens`). -/
def fallbackTokens45 (b : AOut) (s : List Char) : AOut :=
  let b1 :=
    match findAll patNInputTokens s with
    | [] => b
    | c :: _ => { b with input_tokens := jint (digitsToNat c.data) }
  match findAll patNOutputTokens s with
  | [] => b1
  | c :: _ => { b1 with output_tokens := jint (digitsToNat c.data) }

/-- The `for pattern in token_patterns:` loop of the fallback branch,
in source order; each later pattern overwrites the field set by an
earlier one.  `float()` on an unparsable capture raises. -/
def fallbackTokens (b : AOut) (s : List Char) : Except String AOut :=
  let b1 :=
    match findAll patInputTokens s with
    | [] => b
    | c :: _ => { b with input_tokens := jint (digitsToNat c.data) }
  let b2 :=
    match findAll patOutputTokens s with
    | [] => b1
    | c :: _ => { b1 with output_tokens := jint (digitsToNat c.data) }
  match findAll patTotalCost s with
  | [] => .ok (fallbackTokens45 b2 s)
  | c :: _ =>
      match parseFloatCapture c.data with
      | some v => .ok (fallbackTokens45 { b2 with total_cost := Json.num v } s)
      | none => .error "ValueError: could not convert string to float"

/-- Set insertion for the regex-recovered file paths (all strings). -/
def dedupInsert (acc : List String) (x : String) : List String :=
  if acc.contains x then acc else acc ++ [x]

/-- `edited_files.update(matches)` for one pattern. -/
def dedupAddAll (acc : List String) : List String → List String
  | [] => acc
  | x :: xs => dedupAddAll (dedupInsert acc x) xs

/-- The `for pattern in file_patterns:` loop of the fallback branch:
the four patterns in source order, unioned into one set. -/
def fallbackFiles (s : List Char) : List String :=
  dedupAddAll
    (dedupAddAll
      (dedupAddAll
        (dedupAddAll [] (findAll patEdited s))
        (findAll patModified s))
      (findAll patWritingTo s))
    (findAll patCreated s)

/-- The fallback edit summary (all paths are regex captures, hence
strings, so `join` cannot raise here). -/
def fallbackSummary (files : List String) : String :=
  if files.isEmpty then "No files were edited"
  else "Edited " ++ toString files.length ++ " file(s): " ++ joinCommaSep files

/-- The whole `except json.JSONDecodeError:` branch (lines 411-451). -/
def fallbackExtract (base : AOut) (s : List Char) : Except String AOut :=
  match fallbackTokens base s with
  | .error e => .error e
  | .ok b =>
      let files := fallbackFiles s
      .ok { b with
            files_edited := files.map Json.str,
            edit_summary := fallbackSummary files }

/-- Outcome of the external `json.loads` call on a nonempty-stripped
stdout: the decoded document, or a `json.JSONDecodeError`. -/
inductive ParseOutcome where
  | parsed (d : Json)
  | failed

/-- `ClaudeCodeAnalyze.execute` (lines 363-451), taking stdout,
stderr and the `json.loads` outcome.  When the stripped stdout is
empty, `json.loads` is never called and neither branch runs, so the
initialized defaults are returned unchanged.  (The `or ""`
normalizations on the two input ports are the identity on strings.) -/
def analyze (stdout stderr : String) (po : ParseOutcome) : Except String AOut :=
  let base := initAOut stderr
  if pyStrip stdout == "" then .ok base
  else
    match po with
    | .parsed d => jsonPath base d
    | .failed => fallbackExtract base stdout.data

/-! ### The command builder inside `ClaudeCodeExecute.execute`
(lines 271-299). -/

/-- The shared configuration values `ClaudeCodeExecute` reads from
the context (after `get_claude_config` default resolution), plus the
resolved executable path. -/
structure ExecConfig where
  claude_cmd : String
  working_dir : String
  model : Option String
  verbose : Bool
  debug : Bool

/-- The component's input ports.  `InArg` values may be unset
(`none`); Python tests them for truthiness, and `print_mode` uses the
identity test `is not False`. -/
structure ExecInputs where
  prompt : Option String
  print_mode : Option Bool
  continue_conversation : Option Bool
  resume_session : Option String
  additional_options : Option String

/-- Truthiness of an optional string port: set and nonempty. -/
def optStrTruthy : Option String → Bool
  | some s => s != ""
  | none => false

/-- Truthiness of an optional bool port. -/
def optBoolTruthy : Option Bool → Bool
  | some b => b
  | none => false

/-- `cmd_parts` as assembled by `ClaudeCodeExecute.execute`: base
command, permission bypass, allowed directory, then the conditional
flags in source order.  `--continue` and `--resume` are independent
`if` statements, and `--print` is emitted unless `print_mode` is the
literal `False`. -/
def buildCmd (cfg : ExecConfig) (inp : ExecInputs) : List String :=
  [cfg.claude_cmd, "--permission-mode", "bypassPermissions", "--add-dir", cfg.working_dir]
  ++ (if cfg.debug then ["--debug"] else [])
  ++ (if cfg.verbose then ["--verbose"] else [])
  ++ (match cfg.model with
      | some m => if m != "" then ["--model", m] else []
      | none => [])
  ++ (if inp.print_mode ≠ some false then ["--print", "--output-format", "json"] else [])
  ++ (if optBoolTruthy inp.continue_conversation then ["--continue"] else [])
  ++ (match inp.resume_session with
      | some sid => if sid != "" then ["--resume", sid] else []
      | none => [])
  ++ (match inp.additional_options with
      | some opts => if opts != "" then pySplit opts else []
      | none => [])
  ++ (match inp.prompt with
      | some p => if p != "" then [p] else []
      | none => [])

/-! ### The process runner inside `ClaudeCodeExecute.execute`
(lines 301-331): `subprocess.run` wrapped in `try/except`. -/

/-- What the subprocess call did: completed (with outputs and exit
code), raised `subprocess.TimeoutExpired`, or raised some other
exception with message `msg`. -/
inductive RunOutcome where
  | completed (stdout stderr : String) (code : Int)
  | timedOut
  | osFailure (msg : String)

/-- The captured result the component publishes on its out-ports. -/
structure RawResult where
  stdout : String
  stderr : String
  return_code : Int

/-- The stderr text produced on timeout. -/
def timeoutMsg (timeout : Nat) : String :=
  "Command timed out after " ++ toString timeout ++ " seconds"

/-- The runner's exception normalization: a timeout or any other
failure becomes a result with exit code `-1` and empty stdout; no
exception escapes `execute`. -/
def runnerResult (timeout : Nat) (oc : RunOutcome) : RawResult :=
  match oc with
  | .completed out err code => ⟨out, err, code⟩
  | .timedOut => ⟨"", timeoutMsg timeout, -1⟩
  | .osFailure msg => ⟨"", msg, -1⟩

/-! ### The environment resolver `ensure_claude_code_available`
(lines 9-121). -/

/-- Child-process spawns the resolver can perform: a `--version`
health probe of a candidate executable, or the `npm install` of the
provisioning step (the event marks entering the install attempt). -/
inductive SpawnEv where
  | versionProbe (cmd : String)
  | npmInstall
deriving DecidableEq, Repr

/-- Outcome of a `subprocess.run([cmd, '--version'], ...)` probe. -/
inductive ProbeOutcome where
  | ran (returncode : Int) (stderr : String)
  | probeTimeout
  | exc (msg : String)
deriving DecidableEq, Repr

/-- Outcome of the `npm install` try-block. -/
inductive InstallOutcome where
  | installed
  | calledProcessErr (stderr : String)
  | npmNotFound
  | exc (msg : String)
deriving DecidableEq, Repr

/-- The parts of the process environment and filesystem the resolver
consults, each query's outcome fixed up front. -/
structure World where
  env : List (String × String)
  home : String
  localBinUsable : Bool
  whichClaude : Option String
  globalProbe : ProbeOutcome
  install : InstallOutcome
  localBinUsableAfterInstall : Bool
  finalProbe : ProbeOutcome

/-- `~/.claude_code/node_modules/.bin/claude`. -/
def claudeBinPath (w : World) : String :=
  w.home ++ "/.claude_code/node_modules/.bin/claude"

/-- The error raised when `ANTHROPIC_API_KEY` is unset (the two
adjacent Python string literals concatenate). -/
def apiKeyErrorMsg : String :=
  "ANTHROPIC_API_KEY environment variable is not set. " ++
  "Please set your Anthropic API key before using Claude Code components."

/-- The final `--version` verification (lines 101-116).  A nonzero
exit raises a `RuntimeError` inside the same `try`, so it is re-caught
and re-wrapped by the generic `except Exception` handler. -/
def verifyPhase (c : String) (evs : List SpawnEv) (probe : ProbeOutcome) :
    List SpawnEv × Except String String :=
  (evs ++ [SpawnEv.versionProbe c],
   match probe with
   | .ran code stderr =>
       if code ≠ 0 then
         .error ("Error verifying Claude Code CLI: " ++
                 "Claude Code CLI is installed but not working properly: " ++ stderr)
       else .ok c
   | .probeTimeout =>
       .error "Claude Code CLI is not responding. Please check your installation."
   | .exc m => .error ("Error verifying Claude Code CLI: " ++ m))

/-- The provisioning branch (lines 58-99).  Note the `raise` on a
missing binary after a successful install happens inside the install
`try`, so its message is wrapped by the generic handler. -/
def installPhase (w : World) (evs : List SpawnEv) :
    List SpawnEv × Except String String :=
  let evs := evs ++ [SpawnEv.npmInstall]
  match w.install with
  | .calledProcessErr stderr =>
      (evs, .error ("Failed to install Claude Code CLI: " ++ stderr ++
        ". Please ensure npm is installed and try manually: npm install -g @anthropic-ai/claude-code"))
  | .npmNotFound =>
      (evs, .error ("npm command not found. Please install Node.js and npm, then try manually: " ++
        "npm install -g @anthropic-ai/claude-code"))
  | .exc m =>
      (evs, .error ("Error during Claude Code installation: " ++ m ++
        ". Please install manually: npm install -g @anthropic-ai/claude-code"))
  | .installed =>
      if w.localBinUsableAfterInstall then
        verifyPhase (claudeBinPath w) evs w.finalProbe
      else
        (evs, .error ("Error during Claude Code installation: " ++
          "Failed to install Claude Code CLI. Please install manually: " ++
          "npm install -g @anthropic-ai/claude-code" ++
          ". Please install manually: npm install -g @anthropic-ai/claude-code"))

/-- `ensure_claude_code_available`: the credential check comes first
and raises before any child process is spawned; then local install
dir, then a probed global `claude`, then provisioning; finally the
resolved command is verified and returned (the caller stores it in
the context). -/
def ensureCCA (w : World) : List SpawnEv × Except String String :=
  if ((w.env.lookup "ANTHROPIC_API_KEY").getD "") == "" then
    ([], .error apiKeyErrorMsg)
  else
    let located : List SpawnEv × Option String :=
      if w.localBinUsable then ([], some (claudeBinPath w))
      else
        match w.whichClaude with
        | none => ([], none)
        | some g =>
            ([SpawnEv.versionProbe g],
             match w.globalProbe with
             | .ran code _ => if code == 0 then some g else none
             | _ => none)
    match located with
    | (evs, some c) => verifyPhase c evs w.finalProbe
    | (evs, none) => installPhase w evs

/-! ### `ClaudeCodeInit.execute` (lines 186-222). -/

/-- The component's input ports. -/
structure InitInputs where
  model : Option String
  working_dir : Option String
  timeout : Option Int
  api_key : Option String
  verbose : Option Bool
  debug : Option Bool

/-- The `claude_config` record stored in the context. -/
structure ClaudeConfig where
  model : Option String
  working_dir : String
  timeout : Int
  output_format : String
  verbose : Bool
  debug : Bool

/-- The execution context, as used by the Claude components. -/
structure Ctx where
  claude_config : Option ClaudeConfig
  claude_cmd : Option String

/-- The config record built at line 193: `or`-defaults on working
directory (falling back to `os.getcwd()`), timeout (`or 120`, so a
zero timeout also becomes 120) and the two booleans. -/
def mkConfig (inp : InitInputs) (cwd : String) : ClaudeConfig :=
  { model := inp.model
    working_dir :=
      match inp.working_dir with
      | some s => if s != "" then s else cwd
      | none => cwd
    timeout :=
      match inp.timeout with
      | some t => if t ≠ 0 then t else 120
      | none => 120
    output_format := "json"
    verbose := optBoolTruthy inp.verbose
    debug := optBoolTruthy inp.debug }

/-- The environment seen by `ensure_claude_code_available` after the
optional `os.environ['ANTHROPIC_API_KEY']` override. -/
def initWorld (inp : InitInputs) (w : World) : World :=
  match inp.api_key with
  | some k => if k != "" then { w with env := ("ANTHROPIC_API_KEY", k) :: w.env } else w
  | none => w

/-- `str()` of a Python bool. -/
def pyBoolStr (b : Bool) : String := if b then "True" else "False"

/-- The success-path configuration summary f-string. -/
def successSummary (cfg : ClaudeConfig) (cmd : String) : String :=
  "Claude Code Configuration:\nModel: " ++
  (match cfg.model with
   | some m => if m != "" then m else "default"
   | none => "default") ++
  "\nWorking Directory: " ++ cfg.working_dir ++
  "\nTimeout: " ++ toString cfg.timeout ++ " seconds" ++
  "\nOutput Format: json (required)" ++
  "\nVerbose: " ++ pyBoolStr cfg.verbose ++
  "\nDebug: " ++ pyBoolStr cfg.debug ++
  "\nClaude Command: " ++ cmd

/-- `ClaudeCodeInit.execute`: the whole body sits in a
`try/except Exception`, so no exception escapes; the config record is
written into the context before the resolver runs, and is not removed
when the resolver fails. -/
def initExecute (inp : InitInputs) (cwd : String) (w : World) (ctx : Ctx) :
    Ctx × Bool × String :=
  let cfg := mkConfig inp cwd
  let ctx1 : Ctx := { ctx with claude_config := some cfg }
  match (ensureCCA (initWorld inp w)).2 with
  | .ok cmd =>
      ({ ctx1 with claude_cmd := some cmd }, true, successSummary cfg cmd)
  | .error e => (ctx1, false, "Initialization failed: " ++ e)

/-! ### Helper lemmas -/

/-- Key membership (`fs.any`) agrees with `lastLookup`. -/
theorem lastLookup_isSome_iff_any (fs : List (String × Json)) (k : String) :
    (lastLookup fs k).isSome = fs.any (fun p => p.1 == k) := by
  induction fs with
  | nil => rfl
  | cons p rest ih =>
      obtain ⟨k', v⟩ := p
      simp only [lastLookup, List.any_cons]
      cases h : lastLookup rest k with
      | some w => simp [← ih, h]
      | none =>
          simp only [← ih, h]
          by_cases hk : k' == k <;> simp [hk]

/-- `fallbackTokens45` never touches the flag or file fields. -/
theorem fallbackTokens45_flags (b : AOut) (s : List Char) :
    (fallbackTokens45 b s).success = b.success
    ∧ (fallbackTokens45 b s).has_errors = b.has_errors
    ∧ (fallbackTokens45 b s).files_edited = b.files_edited
    ∧ (fallbackTokens45 b s).edit_summary = b.edit_summary := by
  unfold fallbackTokens45
  cases findAll patNInputTokens s <;> cases findAll patNOutputTokens s <;> simp

/-- `fallbackTokens` never touches the flag or file fields. -/
theorem fallbackTokens_flags (b b' : AOut) (s : List Char)
    (h : fallbackTokens b s = Except.ok b') :
    b'.success = b.success ∧ b'.has_errors = b.has_errors := by
  unfold fallbackTokens at h
  cases h1 : findAll patInputTokens s <;> cases h2 : findAll patOutputTokens s <;>
    cases h3 : findAll patTotalCost s <;> simp only [h1, h2, h3] at h
  all_goals
    first
    | (cases h
       exact ⟨(fallbackTokens45_flags _ _).1, (fallbackTokens45_flags _ _).2.1⟩)
    | (rename_i c rest
       cases h4 : parseFloatCapture c.data <;> simp only [h4] at h
       · cases h
       · cases h
         exact ⟨(fallbackTokens45_flags _ _).1.trans rfl,
                (fallbackTokens45_flags _ _).2.1.trans rfl⟩)

/-- The fallback branch never touches the success flags. -/
theorem fallbackExtract_flags (base out : AOut) (s : List Char)
    (h : fallbackExtract base s = Except.ok out) :
    out.success = base.success ∧ out.has_errors = base.has_errors := by
  unfold fallbackExtract at h
  cases ht : fallbackTokens base s with
  | error e => rw [ht] at h; cases h
  | ok b =>
      rw [ht] at h
      cases h
      exact fallbackTokens_flags base b s ht

/-- The JSON branch never touches the success flags. -/
theorem jsonPath_flags (base : AOut) (d : Json) (out : AOut)
    (h : jsonPath base d = Except.ok out) :
    out.success = base.success ∧ out.has_errors = base.has_errors := by
  unfold jsonPath at h
  cases hu : usageExtract d with
  | error e => rw [hu] at h; dsimp only at h; exact Except.noConfusion h
  | ok ou =>
    rw [hu] at h; dsimp only at h
    cases ht : toolCallsExtract d with
    | error e => rw [ht] at h; dsimp only at h; exact Except.noConfusion h
    | ok files =>
      rw [ht] at h; dsimp only at h
      cases hs : editSummaryOf files with
      | error e => rw [hs] at h; dsimp only at h; exact Except.noConfusion h
      | ok summ =>
        rw [hs] at h; dsimp only at h
        cases ou with
        | some triple =>
            obtain ⟨it, ot, tc⟩ := triple
            dsimp only at h
            cases h
            exact ⟨rfl, rfl⟩
        | none =>
            dsimp only at h
            cases h
            exact ⟨rfl, rfl⟩

/-- Elimination principle for a successful JSON branch: the three
sub-computations succeeded, the file/summary outputs are theirs, and
the token fields come from the usage triple (or stay at the base
values when no usage record is present). -/
theorem jsonPath_ok_elim (base : AOut) (d : Json) (out : AOut)
    (h : jsonPath base d = Except.ok out) :
    ∃ ou files summ,
      usageExtract d = Except.ok ou
      ∧ toolCallsExtract d = Except.ok files
      ∧ editSummaryOf files = Except.ok summ
      ∧ out.files_edited = files
      ∧ out.edit_summary = summ
      ∧ (∀ it ot tc, ou = some (it, ot, tc) →
          out.input_tokens = it ∧ out.output_tokens = ot ∧ out.total_cost = tc)
      ∧ (ou = none →
          out.input_tokens = base.input_tokens
          ∧ out.output_tokens = base.output_tokens
          ∧ out.total_cost = base.total_cost) := by
  unfold jsonPath at h
  cases hu : usageExtract d with
  | error e => rw [hu] at h; dsimp only at h; exact Except.noConfusion h
  | ok ou =>
    rw [hu] at h; dsimp only at h
    cases ht : toolCallsExtract d with
    | error e => rw [ht] at h; dsimp only at h; exact Except.noConfusion h
    | ok files =>
      rw [ht] at h; dsimp only at h
      cases hs : editSummaryOf files with
      | error e => rw [hs] at h; dsimp only at h; exact Except.noConfusion h
      | ok summ =>
        rw [hs] at h; dsimp only at h
        refine ⟨ou, files, summ, rfl, rfl, hs, ?_⟩
        cases ou with
        | some triple =>
            obtain ⟨it, ot, tc⟩ := triple
            dsimp only at h
            cases h
            refine ⟨rfl, rfl, ?_, fun hnone => Option.noConfusion hnone⟩
            intro it' ot' tc' htr
            cases htr
            exact ⟨rfl, rfl, rfl⟩
        | none =>
            dsimp only at h
            cases h
            exact ⟨rfl, rfl, fun _ _ _ htr => Option.noConfusion htr,
                   fun _ => ⟨rfl, rfl, rfl⟩⟩

/-- A usage record present as an object yields the three `get`
defaults over its fields. -/
theorem usageExtract_obj_some (fs : List (String × Json)) (u : List (String × Json))
    (hu : lastLookup fs "usage" = some (Json.obj u)) :
    usageExtract (Json.obj fs)
      = Except.ok (some ((lastLookup u "input_tokens").getD (jint 0),
                         (lastLookup u "output_tokens").getD (jint 0),
                         (lastLookup u "total_cost").getD (jint 0))) := by
  have hany : fs.any (fun p => p.1 == "usage") = true := by
    have hiff := lastLookup_isSome_iff_any fs "usage"
    rw [hu] at hiff
    exact hiff.symm
  simp only [usageExtract, pyIn, getItem, hany, hu]

/-- An absent usage key leaves the token fields untouched. -/
theorem usageExtract_obj_none (fs : List (String × Json))
    (hu : lastLookup fs "usage" = none) :
    usageExtract (Json.obj fs) = Except.ok none := by
  have hany : fs.any (fun p => p.1 == "usage") = false := by
    have hiff := lastLookup_isSome_iff_any fs "usage"
    rw [hu] at hiff
    exact hiff.symm
  simp only [usageExtract, pyIn, hany]

/-! ### Claim C1 -/

/-- Claim C1 (evaluation of the code at the specified input): for the
non-JSON stdout used by the fallback-equivalence property, the
fallback regex loop yields `input_tokens = 7` and
`total_cost = 0.02`, but `output_tokens = 7`, not `3`: the pattern
`(\d+)\s*output\s*tokens` matches `7` followed by the newline and
`Output tokens`, and being a later pattern it overwrites the `3`
captured by `Output tokens:\s*(\d+)`. -/
theorem c1_code_behavior_at_spec_example :
    analyze "Input tokens: 7\nOutput tokens: 3\nTotal cost: $0.02" "" ParseOutcome.failed
      = Except.ok
          { input_tokens := jint 7
            output_tokens := jint 7
            total_cost := Json.num ⟨2, 2⟩
            files_edited := []
            edit_summary := "No files were edited"
            has_errors := false
            success := true } := rfl

/-! ### Claim C2 -/

/-- Claim C2 (counterexample): with both `continue_conversation` and
`resume_session` set, the built argument vector contains `--resume`
immediately followed by the id AND the `--continue` flag — the claim
that the continue flag is never also present is false on the code. -/
theorem c2_counterexample :
    buildCmd ⟨"claude", "/w", none, false, false⟩
        ⟨none, some true, some true, some "abc-123", none⟩
      = ["claude", "--permission-mode", "bypassPermissions", "--add-dir", "/w",
         "--print", "--output-format", "json", "--continue", "--resume", "abc-123"]
    ∧ "--continue" ∈ buildCmd ⟨"claude", "/w", none, false, false⟩
        ⟨none, some true, some true, some "abc-123", none⟩ :=
  ⟨rfl, by decide⟩

/-! ### Claim C3 -/

/-- Claim C3 (counterexample): on the JSON path, a document whose
`is_error` field signals failure still yields `success = true` when
stderr is empty — the analyzer has no exit-code input and never reads
the structured error indicator, so the claimed JSON-path success
definition is false on the code. -/
theorem c3_counterexample :
    analyze "\x7b\"is_error\": true\x7d" ""
        (ParseOutcome.parsed (Json.obj [("is_error", Json.bool true)]))
      = Except.ok
          { input_tokens := jint 0
            output_tokens := jint 0
            total_cost := jint 0
            files_edited := []
            edit_summary := "No files were edited"
            has_errors := false
            success := true } := rfl

/-- Claim C3 (amended): on every path — JSON or fallback — the
analyzer's success flag equals emptiness of stderr (and `has_errors`
its non-emptiness); exit code and structured error indicators are not
consulted. -/
theorem c3_success_stderr_only (stdout stderr : String) (po : ParseOutcome) (out : AOut)
    (h : analyze stdout stderr po = Except.ok out) :
    out.success = (stderr == "") ∧ out.has_errors = (stderr != "") := by
  unfold analyze at h
  by_cases hs : pyStrip stdout == ""
  · rw [if_pos hs] at h
    cases h
    exact ⟨rfl, rfl⟩
  · rw [if_neg hs] at h
    cases po with
    | parsed d =>
        have := jsonPath_flags (initAOut stderr) d out h
        exact ⟨this.1, this.2⟩
    | failed =>
        have := fallbackExtract_flags (initAOut stderr) out stdout.data h
        exact ⟨this.1, this.2⟩

/-- Witness for the amended C3 at a concrete input (an erroring
stderr on the JSON path). -/
theorem c3_success_stderr_only_witness :
    (initAOut "boom").success = ("boom" == "")
    ∧ (initAOut "boom").has_errors = ("boom" != "") :=
  c3_success_stderr_only "" "boom" ParseOutcome.failed (initAOut "boom") rfl

/-- With a nonempty stripped stdout and a parsed document, `analyze`
is the JSON branch. -/
theorem analyze_parsed_elim (stdout stderr : String) (d : Json) (out : AOut)
    (hs : pyStrip stdout ≠ "")
    (h : analyze stdout stderr (ParseOutcome.parsed d) = Except.ok out) :
    jsonPath (initAOut stderr) d = Except.ok out := by
  unfold analyze at h
  rwa [if_neg (by simpa using hs)] at h

/-- With a nonempty stripped stdout and a parse failure, `analyze` is
the fallback branch. -/
theorem analyze_failed_elim (stdout stderr : String) (out : AOut)
    (hs : pyStrip stdout ≠ "")
    (h : analyze stdout stderr ParseOutcome.failed = Except.ok out) :
    fallbackExtract (initAOut stderr) stdout.data = Except.ok out := by
  unfold analyze at h
  rwa [if_neg (by simpa using hs)] at h

/-! ### Claim C4 -/

/-- Claim C4 (counterexample): a document carrying a top-level
`total_cost_usd` of `1.5` (and `usage.input_tokens = 42`) yields
`total_cost = 0`, not `1.5` — the code reads the cost from the key
`total_cost` inside the usage record, never from the top-level
`total_cost_usd` field named by the claim. -/
theorem c4_counterexample :
    analyze "\x7b\"total_cost_usd\": 1.5, \"usage\": \x7b\"input_tokens\": 42\x7d\x7d" ""
        (ParseOutcome.parsed (Json.obj
          [("total_cost_usd", Json.num ⟨15, 1⟩),
           ("usage", Json.obj [("input_tokens", jint 42)])]))
      = Except.ok
          { input_tokens := jint 42
            output_tokens := jint 0
            total_cost := jint 0
            files_edited := []
            edit_summary := "No files were edited"
            has_errors := false
            success := true }
    ∧ (jint 0 : Json) ≠ Json.num ⟨15, 1⟩ := by
  refine ⟨rfl, ?_⟩
  intro hEq
  injection hEq with h2
  exact absurd (congrArg PyNum.mantissa h2) (by decide)

/-- Claim C4 (amended): on the JSON path, `input_tokens` and
`output_tokens` are read from the nested usage record with default
`0`, and the cost is likewise read from the usage record — under the
key `total_cost`, not from a top-level `total_cost_usd` — with
default `0.0`; a wholly absent usage record leaves all three at
zero.  Missing fields never raise. -/
theorem c4_usage_extraction (stdout stderr : String) (fs : List (String × Json)) (out : AOut)
    (hs : pyStrip stdout ≠ "")
    (h : analyze stdout stderr (ParseOutcome.parsed (Json.obj fs)) = Except.ok out) :
    (∀ u, lastLookup fs "usage" = some (Json.obj u) →
        out.input_tokens = (lastLookup u "input_tokens").getD (jint 0)
        ∧ out.output_tokens = (lastLookup u "output_tokens").getD (jint 0)
        ∧ out.total_cost = (lastLookup u "total_cost").getD (jint 0))
    ∧ (lastLookup fs "usage" = none →
        out.input_tokens = jint 0 ∧ out.output_tokens = jint 0 ∧ out.total_cost = jint 0) := by
  have hj := analyze_parsed_elim stdout stderr (Json.obj fs) out hs h
  obtain ⟨ou, files, summ, hu, ht, hsm, hf, hes, hsome, hnone⟩ := jsonPath_ok_elim _ _ _ hj
  constructor
  · intro u huu
    have hus := usageExtract_obj_some fs u huu
    rw [hu] at hus
    exact hsome _ _ _ (Except.ok.inj hus)
  · intro huu
    have hus := usageExtract_obj_none fs huu
    rw [hu] at hus
    exact hnone (Except.ok.inj hus)

/-- Witness for the amended C4: a usage record with
`input_tokens = 42` yields exactly `42`, and the defaults apply to
the other two fields. -/
theorem c4_usage_extraction_witness :
    ({ input_tokens := jint 42
       output_tokens := jint 0
       total_cost := jint 0
       files_edited := []
       edit_summary := "No files were edited"
       has_errors := false
       success := true } : AOut).input_tokens
        = (lastLookup [("input_tokens", jint 42)] "input_tokens").getD (jint 0)
    ∧ ({ input_tokens := jint 42
         output_tokens := jint 0
         total_cost := jint 0
         files_edited := []
         edit_summary := "No files were edited"
         has_errors := false
         success := true } : AOut).output_tokens
        = (lastLookup [("input_tokens", jint 42)] "output_tokens").getD (jint 0)
    ∧ ({ input_tokens := jint 42
         output_tokens := jint 0
         total_cost := jint 0
         files_edited := []
         edit_summary := "No files were edited"
         has_errors := false
         success := true } : AOut).total_cost
        = (lastLookup [("input_tokens", jint 42)] "total_cost").getD (jint 0) :=
  (c4_usage_extraction "x" "" [("usage", Json.obj [("input_tokens", jint 42)])]
      { input_tokens := jint 42
        output_tokens := jint 0
        total_cost := jint 0
        files_edited := []
        edit_summary := "No files were edited"
        has_errors := false
        success := true }
      (by decide) rfl).1 [("input_tokens", jint 42)] rfl

/-! ### Claim C5 -/

/-- Claim C5 (counterexample): for empty stdout the analyzer returns
its initialization defaults and in particular an empty
`edit_summary`, not the fallback text "No files were edited" — the
`if output_text.strip():` guard means `json.loads` is never called,
so the `except` fallback never runs. -/
theorem c5_counterexample :
    analyze "" "" ParseOutcome.failed = Except.ok (initAOut "")
    ∧ (initAOut "").edit_summary = ""
    ∧ (initAOut "").edit_summary ≠ "No files were edited" :=
  ⟨rfl, rfl, by decide⟩

/-- Claim C5 (amended): for every stdout that is empty or
whitespace-only, neither the JSON branch nor the regex fallback runs;
the outputs are the initialization defaults — zero tokens, zero cost,
empty `files_edited` and an empty `edit_summary` (not the fallback
summary text). -/
theorem c5_blank_stdout_defaults (stdout stderr : String) (po : ParseOutcome)
    (h : pyStrip stdout = "") :
    analyze stdout stderr po = Except.ok (initAOut stderr)
    ∧ (initAOut stderr).input_tokens = jint 0
    ∧ (initAOut stderr).output_tokens = jint 0
    ∧ (initAOut stderr).total_cost = jint 0
    ∧ (initAOut stderr).files_edited = []
    ∧ (initAOut stderr).edit_summary = "" := by
  refine ⟨?_, rfl, rfl, rfl, rfl, rfl⟩
  unfold analyze
  rw [if_pos (by simpa using h)]

/-- Witness for the amended C5 at a whitespace-only stdout with a
nonempty stderr. -/
theorem c5_blank_stdout_defaults_witness :
    analyze " \n\t " "err" ParseOutcome.failed = Except.ok (initAOut "err")
    ∧ (initAOut "err").input_tokens = jint 0
    ∧ (initAOut "err").output_tokens = jint 0
    ∧ (initAOut "err").total_cost = jint 0
    ∧ (initAOut "err").files_edited = []
    ∧ (initAOut "err").edit_summary = "" :=
  c5_blank_stdout_defaults " \n\t " "err" ParseOutcome.failed rfl

/-! ### Claim C6 -/

/-- Claim C6: a timed-out subprocess is normalized by the runner —
never propagated as an exception (`runnerResult` is total on
`RunOutcome`) — into exit code `-1`, empty stdout and a nonempty
descriptive stderr, and analyzing any such result (whatever the
parse outcome parameter) reports `has_errors = true`. -/
theorem c6_timeout_normalized (t : Nat) (po : ParseOutcome) :
    (runnerResult t RunOutcome.timedOut).return_code = -1
    ∧ (runnerResult t RunOutcome.timedOut).stdout = ""
    ∧ (runnerResult t RunOutcome.timedOut).stderr ≠ ""
    ∧ analyze (runnerResult t RunOutcome.timedOut).stdout
        (runnerResult t RunOutcome.timedOut).stderr po
        = Except.ok (initAOut (timeoutMsg t))
    ∧ (initAOut (timeoutMsg t)).has_errors = true := by
  have hne : timeoutMsg t ≠ "" := by
    intro hEq
    have hlen := congrArg String.length hEq
    simp [timeoutMsg, String.length_append] at hlen
    exact absurd hlen.1.1 (by decide)
  refine ⟨rfl, rfl, hne, rfl, ?_⟩
  simpa [initAOut, bne_iff_ne] using hne

/-! ### Claim C7 -/

/-- Claim C7: with the `ANTHROPIC_API_KEY` credential absent (or
empty) in the process environment, the resolver fails immediately
with the configuration error and spawns zero child processes. -/
theorem c7_missing_key_no_spawn (w : World)
    (h : (w.env.lookup "ANTHROPIC_API_KEY").getD "" = "") :
    ensureCCA w = ([], Except.error apiKeyErrorMsg) := by
  unfold ensureCCA
  rw [if_pos (by simpa using h)]

/-- Witness for C7 at a concrete world with an empty environment
(every other probe would succeed, but none is reached). -/
theorem c7_missing_key_no_spawn_witness :
    ensureCCA ⟨[], "/home/u", false, none, ProbeOutcome.ran 0 "",
               InstallOutcome.installed, true, ProbeOutcome.ran 0 ""⟩
      = ([], Except.error apiKeyErrorMsg) :=
  c7_missing_key_no_spawn
    ⟨[], "/home/u", false, none, ProbeOutcome.ran 0 "",
     InstallOutcome.installed, true, ProbeOutcome.ran 0 ""⟩ rfl

/-! ### Claim C9 -/

/-- Claim C9: `ClaudeCodeInit.execute` never propagates an exception
(`initExecute` is total); the `claude_config` record is stored in the
context before the resolver runs and therefore remains set for every
outcome, and on any resolution failure the component reports
`success = false` with the explanatory summary. -/
theorem c9_init_config_persisted (inp : InitInputs) (cwd : String) (w : World) (ctx : Ctx) :
    (initExecute inp cwd w ctx).1.claude_config = some (mkConfig inp cwd)
    ∧ ∀ e, (ensureCCA (initWorld inp w)).2 = Except.error e →
        (initExecute inp cwd w ctx).2.1 = false
        ∧ (initExecute inp cwd w ctx).2.2 = "Initialization failed: " ++ e := by
  unfold initExecute
  cases hres : (ensureCCA (initWorld inp w)).2 with
  | ok cmd =>
      exact ⟨rfl, fun e he => Except.noConfusion he⟩
  | error e' =>
      refine ⟨rfl, fun e he => ?_⟩
      have : e' = e := Except.error.inj he
      subst this
      exact ⟨rfl, rfl⟩

/-- Witness for C9 at a concrete failing resolution (missing
credential): the config survives in the context and the failure
summary is produced. -/
theorem c9_init_config_persisted_witness :
    (initExecute ⟨none, none, none, none, none, none⟩ "/cw"
        ⟨[], "/home/u", false, none, ProbeOutcome.ran 0 "",
         InstallOutcome.installed, true, ProbeOutcome.ran 0 ""⟩
        ⟨none, none⟩).1.claude_config
      = some (mkConfig ⟨none, none, none, none, none, none⟩ "/cw")
    ∧ (initExecute ⟨none, none, none, none, none, none⟩ "/cw"
        ⟨[], "/home/u", false, none, ProbeOutcome.ran 0 "",
         InstallOutcome.installed, true, ProbeOutcome.ran 0 ""⟩
        ⟨none, none⟩).2.1 = false
    ∧ (initExecute ⟨none, none, none, none, none, none⟩ "/cw"
        ⟨[], "/home/u", false, none, ProbeOutcome.ran 0 "",
         InstallOutcome.installed, true, ProbeOutcome.ran 0 ""⟩
        ⟨none, none⟩).2.2 = "Initialization failed: " ++ apiKeyErrorMsg :=
  ⟨(c9_init_config_persisted ⟨none, none, none, none, none, none⟩ "/cw"
      ⟨[], "/home/u", false, none, ProbeOutcome.ran 0 "",
       InstallOutcome.installed, true, ProbeOutcome.ran 0 ""⟩ ⟨none, none⟩).1,
   ((c9_init_config_persisted ⟨none, none, none, none, none, none⟩ "/cw"
      ⟨[], "/home/u", false, none, ProbeOutcome.ran 0 "",
       InstallOutcome.installed, true, ProbeOutcome.ran 0 ""⟩ ⟨none, none⟩).2
      apiKeyErrorMsg rfl).1,
   ((c9_init_config_persisted ⟨none, none, none, none, none, none⟩ "/cw"
      ⟨[], "/home/u", false, none, ProbeOutcome.ran 0 "",
       InstallOutcome.installed, true, ProbeOutcome.ran 0 ""⟩ ⟨none, none⟩).2
      apiKeyErrorMsg rfl).2⟩

/-! ### Membership facts about the built argument vector -/

/-- A string absent from every segment of the builder's output is
absent from the whole argument vector. -/
theorem not_mem_buildCmd (cfg : ExecConfig) (inp : ExecInputs) (x : String)
    (h1 : cfg.claude_cmd ≠ x) (h2 : cfg.working_dir ≠ x)
    (h3 : "--permission-mode" ≠ x) (h4 : "bypassPermissions" ≠ x)
    (h5 : "--add-dir" ≠ x) (h6 : "--debug" ≠ x) (h7 : "--verbose" ≠ x)
    (h8 : "--model" ≠ x)
    (h9 : ∀ m, cfg.model = some m → m ≠ x)
    (h10 : inp.print_mode = some false
           ∨ ("--print" ≠ x ∧ "--output-format" ≠ x ∧ "json" ≠ x))
    (h11 : optBoolTruthy inp.continue_conversation = false ∨ "--continue" ≠ x)
    (h12 : "--resume" ≠ x)
    (h13 : ∀ sid, inp.resume_session = some sid → sid ≠ x)
    (h14 : ∀ opts, inp.additional_options = some opts → x ∉ pySplit opts)
    (h15 : ∀ p, inp.prompt = some p → p ≠ x) :
    x ∉ buildCmd cfg inp := by
  intro hmem
  unfold buildCmd at hmem
  simp only [List.mem_append] at hmem
  rcases hmem with ((((((((hm | hm) | hm) | hm) | hm) | hm) | hm) | hm) | hm)
  · simp only [List.mem_cons, List.not_mem_nil, or_false] at hm
    rcases hm with hm | hm | hm | hm | hm
    · exact h1 hm.symm
    · exact h3 hm.symm
    · exact h4 hm.symm
    · exact h5 hm.symm
    · exact h2 hm.symm
  · split at hm
    · simp only [List.mem_singleton] at hm
      exact h6 hm.symm
    · exact List.not_mem_nil x hm
  · split at hm
    · simp only [List.mem_singleton] at hm
      exact h7 hm.symm
    · exact List.not_mem_nil x hm
  · rcases hmo : cfg.model with _ | m
    · rw [hmo] at hm
      exact List.not_mem_nil x hm
    · rw [hmo] at hm
      dsimp only at hm
      split at hm
      · simp only [List.mem_cons, List.not_mem_nil, or_false] at hm
        rcases hm with hm | hm
        · exact h8 hm.symm
        · exact h9 m hmo hm.symm
      · exact List.not_mem_nil x hm
  · split at hm
    · rcases h10 with h10 | h10
      · rename_i hcond
        exact hcond h10
      · simp only [List.mem_cons, List.not_mem_nil, or_false] at hm
        rcases hm with hm | hm | hm
        · exact h10.1 hm.symm
        · exact h10.2.1 hm.symm
        · exact h10.2.2 hm.symm
    · exact List.not_mem_nil x hm
  · split at hm
    · rcases h11 with h11 | h11
      · rename_i hcond
        rw [h11] at hcond
        exact Bool.noConfusion hcond
      · simp only [List.mem_singleton] at hm
        exact h11 hm.symm
    · exact List.not_mem_nil x hm
  · rcases hrs : inp.resume_session with _ | sid
    · rw [hrs] at hm
      exact List.not_mem_nil x hm
    · rw [hrs] at hm
      dsimp only at hm
      split at hm
      · simp only [List.mem_cons, List.not_mem_nil, or_false] at hm
        rcases hm with hm | hm
        · exact h12 hm.symm
        · exact h13 sid hrs hm.symm
      · exact List.not_mem_nil x hm
  · rcases hao : inp.additional_options with _ | opts
    · rw [hao] at hm
      exact List.not_mem_nil x hm
    · rw [hao] at hm
      dsimp only at hm
      split at hm
      · exact h14 opts hao hm
      · exact List.not_mem_nil x hm
  · rcases hpr : inp.prompt with _ | p
    · rw [hpr] at hm
      exact List.not_mem_nil x hm
    · rw [hpr] at hm
      dsimp only at hm
      split at hm
      · simp only [List.mem_singleton] at hm
        exact h15 p hpr hm.symm
      · exact List.not_mem_nil x hm

/-! ### Claim C2 -/

/-- Claim C2 (amended): for every intent whose resume input is set to
a nonempty session id, the built argument vector contains the resume
flag immediately followed by the id; but exclusivity is not enforced
by the builder — `--continue` is present exactly when the continue
input is also truthy, so the continue flag is absent only when the
caller does not request continuation (and no other input smuggles the
literal in). -/
theorem c2_resume_flag_behavior (cfg : ExecConfig) (inp : ExecInputs) (sid : String)
    (hres : inp.resume_session = some sid) (hne : sid ≠ "") :
    ["--resume", sid] <:+: buildCmd cfg inp
    ∧ (optBoolTruthy inp.continue_conversation = false →
       cfg.claude_cmd ≠ "--continue" → cfg.working_dir ≠ "--continue" →
       (∀ m, cfg.model = some m → m ≠ "--continue") →
       (∀ opts, inp.additional_options = some opts → "--continue" ∉ pySplit opts) →
       (∀ p, inp.prompt = some p → p ≠ "--continue") →
       sid ≠ "--continue" →
       "--continue" ∉ buildCmd cfg inp) := by
  constructor
  · refine ⟨[cfg.claude_cmd, "--permission-mode", "bypassPermissions", "--add-dir",
        cfg.working_dir]
        ++ (if cfg.debug then ["--debug"] else [])
        ++ (if cfg.verbose then ["--verbose"] else [])
        ++ (match cfg.model with
            | some m => if m != "" then ["--model", m] else []
            | none => [])
        ++ (if inp.print_mode ≠ some false then ["--print", "--output-format", "json"] else [])
        ++ (if optBoolTruthy inp.continue_conversation then ["--continue"] else []),
      (match inp.additional_options with
        | some opts => if opts != "" then pySplit opts else []
        | none => [])
        ++ (match inp.prompt with
            | some p => if p != "" then [p] else []
            | none => []), ?_⟩
    have hbne : (sid != "") = true := by simpa using hne
    unfold buildCmd
    rw [hres]
    dsimp only
    rw [if_pos hbne]
    simp only [List.append_assoc]
  · intro hcont hc hw hmodel hopts hprompt hsid
    refine not_mem_buildCmd cfg inp "--continue" hc hw (by decide) (by decide)
      (by decide) (by decide) (by decide) (by decide) hmodel
      (Or.inr ⟨by decide, by decide, by decide⟩) (Or.inl hcont) (by decide)
      ?_ hopts hprompt
    intro s hs
    rw [hres] at hs
    cases hs
    exact hsid

/-- Witness for the amended C2: concrete config and inputs with the
resume id set and continuation unset. -/
theorem c2_resume_flag_behavior_witness :
    ["--resume", "sess-9"] <:+:
      buildCmd ⟨"claude", "/w", none, false, false⟩
        ⟨some "hi", none, none, some "sess-9", none⟩
    ∧ "--continue" ∉
      buildCmd ⟨"claude", "/w", none, false, false⟩
        ⟨some "hi", none, none, some "sess-9", none⟩ :=
  ⟨(c2_resume_flag_behavior ⟨"claude", "/w", none, false, false⟩
      ⟨some "hi", none, none, some "sess-9", none⟩ "sess-9" rfl (by decide)).1,
   (c2_resume_flag_behavior ⟨"claude", "/w", none, false, false⟩
      ⟨some "hi", none, none, some "sess-9", none⟩ "sess-9" rfl (by decide)).2
     rfl (by decide) (by decide)
     (fun m hm => Option.noConfusion hm)
     (fun opts ho => Option.noConfusion ho)
     (fun p hp => by cases hp; decide)
     (by decide)⟩

/-! ### Claim C10 -/

/-- Claim C10: when `print_mode` is unset (`None`) — indeed whenever
it is not the literal `False`, because the code tests
`is not False` — the builder emits `--print` immediately followed by
the `--output-format json` pair; the pair is omitted exactly when
`print_mode` is explicitly `False` (and no other input supplies those
literals). -/
theorem c10_print_mode_default (cfg : ExecConfig) (inp : ExecInputs) :
    (inp.print_mode ≠ some false →
      ["--print", "--output-format", "json"] <:+: buildCmd cfg inp)
    ∧ (inp.print_mode = some false →
       cfg.claude_cmd ≠ "--print" → cfg.claude_cmd ≠ "--output-format" →
       cfg.working_dir ≠ "--print" → cfg.working_dir ≠ "--output-format" →
       (∀ m, cfg.model = some m → m ≠ "--print" ∧ m ≠ "--output-format") →
       (∀ sid, inp.resume_session = some sid → sid ≠ "--print" ∧ sid ≠ "--output-format") →
       (∀ opts, inp.additional_options = some opts →
         "--print" ∉ pySplit opts ∧ "--output-format" ∉ pySplit opts) →
       (∀ p, inp.prompt = some p → p ≠ "--print" ∧ p ≠ "--output-format") →
       "--print" ∉ buildCmd cfg inp ∧ "--output-format" ∉ buildCmd cfg inp) := by
  constructor
  · intro hpm
    refine ⟨[cfg.claude_cmd, "--permission-mode", "bypassPermissions", "--add-dir",
        cfg.working_dir]
        ++ (if cfg.debug then ["--debug"] else [])
        ++ (if cfg.verbose then ["--verbose"] else [])
        ++ (match cfg.model with
            | some m => if m != "" then ["--model", m] else []
            | none => []),
      (if optBoolTruthy inp.continue_conversation then ["--continue"] else [])
        ++ (match inp.resume_session with
            | some s => if s != "" then ["--resume", s] else []
            | none => [])
        ++ (match inp.additional_options with
            | some opts => if opts != "" then pySplit opts else []
            | none => [])
        ++ (match inp.prompt with
            | some p => if p != "" then [p] else []
            | none => []), ?_⟩
    unfold buildCmd
    rw [if_pos hpm]
    simp only [List.append_assoc]
  · intro hpm hc1 hc2 hw1 hw2 hmodel hsid hopts hprompt
    constructor
    · exact not_mem_buildCmd cfg inp "--print" hc1 hw1 (by decide) (by decide)
        (by decide) (by decide) (by decide) (by decide)
        (fun m hm => (hmodel m hm).1) (Or.inl hpm) (Or.inr (by decide)) (by decide)
        (fun s hs => (hsid s hs).1) (fun o ho => (hopts o ho).1)
        (fun p hp => (hprompt p hp).1)
    · exact not_mem_buildCmd cfg inp "--output-format" hc2 hw2 (by decide) (by decide)
        (by decide) (by decide) (by decide) (by decide)
        (fun m hm => (hmodel m hm).2) (Or.inl hpm) (Or.inr (by decide)) (by decide)
        (fun s hs => (hsid s hs).2) (fun o ho => (hopts o ho).2)
        (fun p hp => (hprompt p hp).2)

/-- Witness for C10: with `print_mode` unset the emitted vector
contains the print/output-format flags adjacently; with it explicitly
false they are absent. -/
theorem c10_print_mode_default_witness :
    ["--print", "--output-format", "json"] <:+:
      buildCmd ⟨"claude", "/w", none, false, false⟩ ⟨some "hi", none, none, none, none⟩
    ∧ ("--print" ∉
        buildCmd ⟨"claude", "/w", none, false, false⟩ ⟨some "hi", some false, none, none, none⟩
      ∧ "--output-format" ∉
        buildCmd ⟨"claude", "/w", none, false, false⟩ ⟨some "hi", some false, none, none, none⟩) :=
  ⟨(c10_print_mode_default ⟨"claude", "/w", none, false, false⟩
      ⟨some "hi", none, none, none, none⟩).1 (by decide),
   (c10_print_mode_default ⟨"claude", "/w", none, false, false⟩
      ⟨some "hi", some false, none, none, none⟩).2 rfl
     (by decide) (by decide) (by decide) (by decide)
     (fun m hm => Option.noConfusion hm)
     (fun s hs => Option.noConfusion hs)
     (fun o ho => Option.noConfusion ho)
     (fun p hp => by cases hp; exact ⟨by decide, by decide⟩)⟩

/-! ### Claim C8 -/

/-- An entry of the tool-call list contributes the path `s` to the
edited set: it is an object whose `name` is one of `Edit`, `Write`,
`MultiEdit`, carrying a `parameters` object whose `file_path` is the
nonempty string `s`. -/
def c8Contributes (tc : Json) (s : String) : Prop :=
  ∃ ofs, tc = Json.obj ofs
    ∧ (lastLookup ofs "name" = some (Json.str "Edit")
       ∨ lastLookup ofs "name" = some (Json.str "Write")
       ∨ lastLookup ofs "name" = some (Json.str "MultiEdit"))
    ∧ ∃ pfs, lastLookup ofs "parameters" = some (Json.obj pfs)
        ∧ lastLookup pfs "file_path" = some (Json.str s)
        ∧ s ≠ ""

/-- The set described verbatim by claim C8: the `file_path`
parameters of tool-call entries whose name is in
`Edit`/`Write`/`MultiEdit`, with no truthiness filter. -/
def claimFilesEdited (tcs : List Json) : List Json :=
  tcs.filterMap (fun tc =>
    match tc with
    | .obj ofs =>
        match lastLookup ofs "name" with
        | some nm =>
            if isEditName nm then
              match lastLookup ofs "parameters" with
              | some (.obj pfs) => lastLookup pfs "file_path"
              | _ => none
            else none
        | none => none
    | _ => none)

/-- `isEditName` holds exactly on the three edit-operation names. -/
theorem isEditName_true_iff (v : Json) :
    isEditName v = true ↔
      (v = Json.str "Edit" ∨ v = Json.str "Write" ∨ v = Json.str "MultiEdit") := by
  cases v <;> simp [isEditName]
  tauto

/-- A `getD Json.null` equal to a string pins down the option. -/
theorem getD_null_eq_str (o : Option Json) (t : String)
    (h : o.getD Json.null = Json.str t) : o = some (Json.str t) := by
  cases o with
  | none => exact absurd h (by simp)
  | some v => simpa using congrArg some h

/-- Python `==` against a string selects exactly that string. -/
theorem flatBeq_str_iff (w : Json) (t : String) :
    flatBeq w (Json.str t) = true ↔ w = Json.str t := by
  cases w <;> simp [flatBeq]

/-- Membership after a set insertion. -/
theorem addToSet_mem (acc acc' : List Json) (v : Json) (s : String)
    (h : addToSet acc v = Except.ok acc') :
    (Json.str s ∈ acc' ↔ Json.str s ∈ acc ∨ v = Json.str s) := by
  cases v with
  | arr xs => simp [addToSet] at h
  | obj fs => simp [addToSet] at h
  | str t =>
      simp only [addToSet, Except.ok.injEq] at h
      subst h
      by_cases hany : acc.any (fun w => flatBeq w (Json.str t)) = true
      · rw [if_pos hany]
        obtain ⟨w, hw, hbeq⟩ := List.any_eq_true.1 hany
        rw [flatBeq_str_iff] at hbeq
        subst hbeq
        constructor
        · exact Or.inl
        · rintro (hmem | hEq)
          · exact hmem
          · exact hEq ▸ hw
      · rw [if_neg hany]
        simp [List.mem_append, eq_comm]
  | null =>
      simp only [addToSet, Except.ok.injEq] at h
      subst h
      split <;> simp [List.mem_append]
  | bool b =>
      simp only [addToSet, Except.ok.injEq] at h
      subst h
      split <;> simp [List.mem_append]
  | num n =>
      simp only [addToSet, Except.ok.injEq] at h
      subst h
      split <;> simp [List.mem_append]

/-- Membership after one loop iteration: the entry adds exactly its
contribution. -/
theorem editStep_mem (acc acc' : List Json) (tc : Json) (s : String)
    (h : editStep acc tc = Except.ok acc') :
    (Json.str s ∈ acc' ↔ Json.str s ∈ acc ∨ c8Contributes tc s) := by
  cases tc with
  | null => simp [editStep, dictGet] at h
  | bool b => simp [editStep, dictGet] at h
  | num n => simp [editStep, dictGet] at h
  | str t => simp [editStep, dictGet] at h
  | arr xs => simp [editStep, dictGet] at h
  | obj ofs =>
      simp only [editStep, dictGet] at h
      by_cases hedit : isEditName ((lastLookup ofs "name").getD Json.null) = true
      · rw [if_pos hedit] at h
        simp only [pyIn] at h
        by_cases hpar : (lastLookup ofs "parameters").isSome = true
        · obtain ⟨params, hparams⟩ := Option.isSome_iff_exists.1 hpar
          have hany : ofs.any (fun p => p.1 == "parameters") = true := by
            rw [← lastLookup_isSome_iff_any, hparams]
            rfl
          rw [hany] at h
          simp only [getItem, hparams] at h
          cases params with
          | obj pfs =>
              simp only [dictGet] at h
              by_cases htr : jsonTruthy ((lastLookup pfs "file_path").getD Json.null) = true
              · rw [if_pos htr] at h
                rw [addToSet_mem acc acc' _ s h]
                have hfp : (lastLookup pfs "file_path")
                    = some ((lastLookup pfs "file_path").getD Json.null) := by
                  cases hl : lastLookup pfs "file_path" with
                  | some v => rfl
                  | none => rw [hl] at htr; exact Bool.noConfusion htr
                constructor
                · rintro (hmem | hEq)
                  · exact Or.inl hmem
                  · refine Or.inr ⟨ofs, rfl, ?_, pfs, hparams, ?_, ?_⟩
                    · rcases (isEditName_true_iff _).1 hedit with h1 | h1 | h1
                      · exact Or.inl (getD_null_eq_str _ _ h1)
                      · exact Or.inr (Or.inl (getD_null_eq_str _ _ h1))
                      · exact Or.inr (Or.inr (getD_null_eq_str _ _ h1))
                    · rw [hfp, hEq]
                    · rw [hEq] at htr
                      simpa [jsonTruthy] using htr
                · rintro (hmem | ⟨ofs', hofs, hnm, pfs', hpfs, hfile, hne⟩)
                  · exact Or.inl hmem
                  · cases hofs
                    rw [hpfs] at hparams
                    cases hparams
                    exact Or.inr (by rw [hfile]; rfl)
              · rw [if_neg htr] at h
                cases h
                constructor
                · exact Or.inl
                · rintro (hmem | ⟨ofs', hofs, hnm, pfs', hpfs, hfile, hne⟩)
                  · exact hmem
                  · cases hofs
                    rw [hpfs] at hparams
                    cases hparams
                    rw [hfile] at htr
                    simp [jsonTruthy, hne] at htr
          | null => simp at h
          | bool b => simp at h
          | num n => simp at h
          | str t => simp at h
          | arr xs => simp at h
        · have hnone : lastLookup ofs "parameters" = none := by
            cases hl : lastLookup ofs "parameters" with
            | none => rfl
            | some v => rw [hl] at hpar; exact absurd rfl hpar
          have hany : ofs.any (fun p => p.1 == "parameters") = false := by
            rw [← lastLookup_isSome_iff_any, hnone]
            rfl
          rw [hany] at h
          cases h
          constructor
          · exact Or.inl
          · rintro (hmem | ⟨ofs', hofs, hnm, pfs', hpfs, _⟩)
            · exact hmem
            · cases hofs
              rw [hpfs] at hnone
              exact Option.noConfusion hnone
      · rw [if_neg hedit] at h
        cases h
        constructor
        · exact Or.inl
        · rintro (hmem | ⟨ofs', hofs, hnm, _⟩)
          · exact hmem
          · cases hofs
            rcases hnm with h1 | h1 | h1 <;>
              (rw [h1] at hedit; exact absurd (by decide) hedit)

/-- Membership in the whole tool-call scan. -/
theorem collectEdits_mem (tcs : List Json) (acc res : List Json) (s : String)
    (h : collectEdits acc tcs = Except.ok res) :
    (Json.str s ∈ res ↔ Json.str s ∈ acc ∨ ∃ tc ∈ tcs, c8Contributes tc s) := by
  induction tcs generalizing acc with
  | nil =>
      simp only [collectEdits, Except.ok.injEq] at h
      subst h
      simp
  | cons tc rest ih =>
      simp only [collectEdits] at h
      cases hstep : editStep acc tc with
      | error e => rw [hstep] at h; exact Except.noConfusion h
      | ok acc1 =>
          rw [hstep] at h
          dsimp only at h
          rw [ih acc1 h, editStep_mem acc acc1 tc s hstep]
          simp only [List.mem_cons]
          constructor
          · rintro ((hmem | hc) | ⟨tc', htc', hc⟩)
            · exact Or.inl hmem
            · exact Or.inr ⟨tc, Or.inl rfl, hc⟩
            · exact Or.inr ⟨tc', Or.inr htc', hc⟩
          · rintro (hmem | ⟨tc', htc' | htc', hc⟩)
            · exact Or.inl (Or.inl hmem)
            · subst htc'
              exact Or.inl (Or.inr hc)
            · exact Or.inr ⟨tc', htc', hc⟩

/-- With the tool-call list present as an array, the extraction is
exactly the loop over its entries. -/
theorem toolCallsExtract_arr (fs : List (String × Json)) (tcs : List Json)
    (h : lastLookup fs "tool_calls" = some (Json.arr tcs)) :
    toolCallsExtract (Json.obj fs) = collectEdits [] tcs := by
  have hany : fs.any (fun p => p.1 == "tool_calls") = true := by
    rw [← lastLookup_isSome_iff_any, h]
    rfl
  simp only [toolCallsExtract, pyIn, getItem, hany, h]

/-- Claim C8 (counterexample): an `Edit` tool call whose `file_path`
parameter is present but empty is skipped by the code (`if
file_path:` filters falsy values), so `files_edited` is empty while
the set described by the claim — the file-path parameters of
edit-named entries — contains the empty string. -/
theorem c8_counterexample :
    analyze
        "\x7b\"tool_calls\": [\x7b\"name\": \"Edit\", \"parameters\": \x7b\"file_path\": \"\"\x7d\x7d]\x7d"
        ""
        (ParseOutcome.parsed (Json.obj [("tool_calls", Json.arr
          [Json.obj [("name", Json.str "Edit"),
                     ("parameters", Json.obj [("file_path", Json.str "")])]])]))
      = Except.ok
          { input_tokens := jint 0
            output_tokens := jint 0
            total_cost := jint 0
            files_edited := []
            edit_summary := "No files were edited"
            has_errors := false
            success := true }
    ∧ claimFilesEdited
        [Json.obj [("name", Json.str "Edit"),
                   ("parameters", Json.obj [("file_path", Json.str "")])]]
      = [Json.str ""] :=
  ⟨rfl, rfl⟩

/-- Claim C8 (amended): on the JSON path, `files_edited` is exactly
the set of truthy (nonempty-string) `file_path` parameters of
tool-call entries whose name is in `Edit`/`Write`/`MultiEdit` —
entries with any other name never contribute, and a present but
falsy `file_path` (such as the empty string) is skipped; on the
fallback path, the stdout `"Edited: a.py\nCreated: b.py"` yields
`files_edited = set {a.py, b.py}` with
`edit_summary = "Edited 2 file(s): ..."` up to listing order. -/
theorem c8_files_edited (stdout stderr : String) (fs : List (String × Json))
    (tcs : List Json) (out : AOut)
    (hs : pyStrip stdout ≠ "")
    (htc : lastLookup fs "tool_calls" = some (Json.arr tcs))
    (h : analyze stdout stderr (ParseOutcome.parsed (Json.obj fs)) = Except.ok out) :
    (∀ s : String, Json.str s ∈ out.files_edited ↔ ∃ tc ∈ tcs, c8Contributes tc s)
    ∧ (∃ fout, analyze "Edited: a.py\nCreated: b.py" "" ParseOutcome.failed = Except.ok fout
        ∧ (∀ v, v ∈ fout.files_edited ↔ v = Json.str "a.py" ∨ v = Json.str "b.py")
        ∧ (fout.edit_summary = "Edited 2 file(s): a.py, b.py"
           ∨ fout.edit_summary = "Edited 2 file(s): b.py, a.py")) := by
  constructor
  · intro s
    have hj := analyze_parsed_elim stdout stderr (Json.obj fs) out hs h
    obtain ⟨ou, files, summ, hu, ht, hsm, hf, hes, hsome, hnone⟩ := jsonPath_ok_elim _ _ _ hj
    have harr := toolCallsExtract_arr fs tcs htc
    rw [harr] at ht
    rw [hf, collectEdits_mem tcs [] files s ht]
    simp
  · refine ⟨{ input_tokens := jint 0
              output_tokens := jint 0
              total_cost := jint 0
              files_edited := [Json.str "a.py", Json.str "b.py"]
              edit_summary := "Edited 2 file(s): a.py, b.py"
              has_errors := false
              success := true }, rfl, ?_, Or.inl rfl⟩
    intro v
    simp

/-- Witness for the amended C8: a document with one `Edit` call on
`x.py` puts exactly that path in the set. -/
theorem c8_files_edited_witness :
    Json.str "x.py" ∈
      ({ input_tokens := jint 0
         output_tokens := jint 0
         total_cost := jint 0
         files_edited := [Json.str "x.py"]
         edit_summary := "Edited 1 file(s): x.py"
         has_errors := false
         success := true } : AOut).files_edited
    ↔ ∃ tc ∈ [Json.obj [("name", Json.str "Edit"),
                        ("parameters", Json.obj [("file_path", Json.str "x.py")])]],
        c8Contributes tc "x.py" :=
  (c8_files_edited "J" ""
      [("tool_calls", Json.arr
        [Json.obj [("name", Json.str "Edit"),
                   ("parameters", Json.obj [("file_path", Json.str "x.py")])]])]
      [Json.obj [("name", Json.str "Edit"),
                 ("parameters", Json.obj [("file_path", Json.str "x.py")])]]
      { input_tokens := jint 0
        output_tokens := jint 0
        total_cost := jint 0
        files_edited := [Json.str "x.py"]
        edit_summary := "Edited 1 file(s): x.py"
        has_errors := false
        success := true }
      (by decide) rfl rfl).1 "x.py"

end ClaudeCodeComponents
